import Mathlib

/-!
Shallow embedding of the library-management-system repository
(src/book.py, src/member.py, src/librarian.py, src/library.py).

Python `datetime` values are modelled as natural-number ticks; `datetime.now()`
becomes an explicit `now : Nat` argument on every operation that reads the
clock.  `isoformat` / `fromisoformat` are modelled as the decimal string codec
below, which is a faithful executable model of an injective timestamp-to-string
encoding with a total left inverse (as the ISO-8601 pair is in Python).
-/

namespace LMS

/-- Decimal digits of `n`, least significant first, with explicit fuel so the
recursion is structural (`fuel ≥ n` suffices). -/
def digitsAux : Nat → Nat → List Nat
  | _, 0 => []
  | 0, _ + 1 => []
  | fuel + 1, n + 1 => (n + 1) % 10 :: digitsAux fuel ((n + 1) / 10)

def natDigits (n : Nat) : List Nat := digitsAux n n

def decodeDigits : List Nat → Nat
  | [] => 0
  | d :: rest => d + 10 * decodeDigits rest

def digitChar (d : Nat) : Char := Char.ofNat (d + 48)

def charDigit (c : Char) : Nat := c.toNat - 48

/-- Model of `datetime.isoformat`: the decimal representation of the tick. -/
def isoformat (t : Nat) : String :=
  if t = 0 then "0" else String.mk (((natDigits t).reverse).map digitChar)

/-- Model of `datetime.fromisoformat`: decode the decimal representation. -/
def fromisoformat (s : String) : Nat :=
  decodeDigits ((s.data.map charDigit).reverse)

theorem decodeDigits_digitsAux :
    ∀ fuel n, n ≤ fuel → decodeDigits (digitsAux fuel n) = n := by
  intro fuel
  induction fuel with
  | zero =>
    intro n hn
    interval_cases n
    rfl
  | succ fuel ih =>
    intro n hn
    match n with
    | 0 => rfl
    | n + 1 =>
      have hdiv : (n + 1) / 10 ≤ fuel := by
        have h1 : (n + 1) / 10 < n + 1 := Nat.div_lt_self (Nat.succ_pos n) (by norm_num)
        omega
      simp only [digitsAux, decodeDigits, ih _ hdiv]
      exact Nat.mod_add_div (n + 1) 10

theorem digitsAux_lt_ten :
    ∀ fuel n d, d ∈ digitsAux fuel n → d < 10 := by
  intro fuel
  induction fuel with
  | zero =>
    intro n d hd
    match n with
    | 0 => simp [digitsAux] at hd
    | n + 1 => simp [digitsAux] at hd
  | succ fuel ih =>
    intro n d hd
    match n with
    | 0 => simp [digitsAux] at hd
    | n + 1 =>
      simp only [digitsAux, List.mem_cons] at hd
      rcases hd with h | h
      · subst h; exact Nat.mod_lt _ (by norm_num)
      · exact ih _ _ h

theorem charDigit_digitChar {d : Nat} (h : d < 10) : charDigit (digitChar d) = d := by
  interval_cases d <;> rfl

theorem fromisoformat_isoformat (t : Nat) : fromisoformat (isoformat t) = t := by
  by_cases h0 : t = 0
  · subst h0; rfl
  · simp only [isoformat, if_neg h0, fromisoformat]
    rw [List.map_map]
    have hmap : ((natDigits t).reverse).map (charDigit ∘ digitChar)
        = ((natDigits t).reverse).map id := by
      apply List.map_congr_left
      intro d hd
      have hd10 : d < 10 := digitsAux_lt_ten t t d (List.mem_reverse.mp hd)
      simp [charDigit_digitChar hd10]
    rw [hmap, List.map_id, List.reverse_reverse]
    exact decodeDigits_digitsAux t t le_rfl

theorem isoformat_ne_empty (t : Nat) : isoformat t ≠ "" := by
  by_cases h0 : t = 0
  · subst h0; simp [isoformat]
  · simp only [isoformat, if_neg h0]
    intro h
    have hdata := congrArg String.data h
    match t, h0 with
    | n + 1, _ =>
      simp [natDigits, digitsAux] at hdata

/-! ## Book (src/book.py) -/

structure Book where
  title : String
  author : String
  isbn : String
  available : Bool
  borrowed_by : Option String
  borrow_date : Option Nat
deriving DecidableEq

/-- `Book.__init__`. -/
def Book.init (title author isbn : String) : Book :=
  { title := title, author := author, isbn := isbn,
    available := true, borrowed_by := none, borrow_date := none }

def Book.is_available (b : Book) : Bool := b.available

def Book.get_borrowed_by (b : Book) : Option String := b.borrowed_by

def Book.get_borrow_date (b : Book) : Option Nat := b.borrow_date

/-- `Book.borrow`: returns the post-state of the object together with the
returned boolean. -/
def Book.borrow (b : Book) (member_id : String) (now : Nat) : Book × Bool :=
  if b.available then
    ({ b with available := false, borrowed_by := some member_id,
               borrow_date := some now }, true)
  else (b, false)

/-- `Book.return_book`. -/
def Book.return_book (b : Book) : Book × Bool :=
  if !b.available then
    ({ b with available := true, borrowed_by := none, borrow_date := none }, true)
  else (b, false)

/-- The plain key-value record produced by `Book.to_dict`. -/
structure BookDict where
  title : String
  author : String
  isbn : String
  available : Bool
  borrowed_by : Option String
  borrow_date : Option String
deriving DecidableEq

def Book.to_dict (b : Book) : BookDict :=
  { title := b.title, author := b.author, isbn := b.isbn,
    available := b.available, borrowed_by := b.borrowed_by,
    borrow_date := b.borrow_date.map isoformat }

/-- `Book.from_dict`; the `if data["borrow_date"]:` truthiness test is false
for `None` and for the empty string. -/
def Book.from_dict (data : BookDict) : Book :=
  let book := Book.init data.title data.author data.isbn
  let book := { book with available := data.available,
                          borrowed_by := data.borrowed_by }
  match data.borrow_date with
  | none => book
  | some s => if s = "" then book else { book with borrow_date := some (fromisoformat s) }

/-! ## Member (src/member.py) -/

structure Member where
  name : String
  member_id : String
  borrowed_books : List String
  registration_date : Nat
deriving DecidableEq

/-- `Member.__init__` (reads the clock for the registration date). -/
def Member.init (name member_id : String) (now : Nat) : Member :=
  { name := name, member_id := member_id, borrowed_books := [],
    registration_date := now }

def Member.get_borrowed_books (m : Member) : List String := m.borrowed_books

def Member.get_registration_date (m : Member) : Nat := m.registration_date

def Member.get_borrowed_count (m : Member) : Nat := m.borrowed_books.length

/-- `Member.borrow_book`. -/
def Member.borrow_book (m : Member) (isbn : String) : Member × Bool :=
  if isbn ∈ m.borrowed_books then (m, false)
  else ({ m with borrowed_books := m.borrowed_books ++ [isbn] }, true)

/-- `Member.return_book`; Python `list.remove` deletes the first occurrence. -/
def Member.return_book (m : Member) (isbn : String) : Member × Bool :=
  if isbn ∈ m.borrowed_books then
    ({ m with borrowed_books := m.borrowed_books.erase isbn }, true)
  else (m, false)

def Member.has_borrowed (m : Member) (isbn : String) : Bool :=
  decide (isbn ∈ m.borrowed_books)

structure MemberDict where
  name : String
  member_id : String
  borrowed_books : List String
  registration_date : String
deriving DecidableEq

def Member.to_dict (m : Member) : MemberDict :=
  { name := m.name, member_id := m.member_id,
    borrowed_books := m.borrowed_books,
    registration_date := isoformat m.registration_date }

/-- `Member.from_dict`: builds via the constructor (which stamps `now`) and then
overwrites the borrowed list and registration date unconditionally. -/
def Member.from_dict (data : MemberDict) (now : Nat) : Member :=
  let member := Member.init data.name data.member_id now
  { member with borrowed_books := data.borrowed_books,
                registration_date := fromisoformat data.registration_date }

/-! ## Librarian (src/librarian.py) -/

structure Librarian where
  name : String
  librarian_id : String
  password : String
  login_count : Nat
  last_login : Option Nat
deriving DecidableEq

/-- `Librarian.__init__` (the Python default password is "admin123"; the
parameter is explicit here). -/
def Librarian.init (name librarian_id password : String) : Librarian :=
  { name := name, librarian_id := librarian_id, password := password,
    login_count := 0, last_login := none }

def Librarian.get_login_count (l : Librarian) : Nat := l.login_count

def Librarian.get_last_login (l : Librarian) : Option Nat := l.last_login

/-- `Librarian.authenticate`. -/
def Librarian.authenticate (l : Librarian) (password : String) (now : Nat) :
    Librarian × Bool :=
  if l.password = password then
    ({ l with login_count := l.login_count + 1, last_login := some now }, true)
  else (l, false)

/-- `Librarian.change_password`. -/
def Librarian.change_password (l : Librarian) (old_password new_password : String) :
    Librarian × Bool :=
  if l.password = old_password then
    ({ l with password := new_password }, true)
  else (l, false)

structure LibrarianDict where
  name : String
  librarian_id : String
  password : String
  login_count : Nat
  last_login : Option String
deriving DecidableEq

def Librarian.to_dict (l : Librarian) : LibrarianDict :=
  { name := l.name, librarian_id := l.librarian_id, password := l.password,
    login_count := l.login_count, last_login := l.last_login.map isoformat }

/-- `Librarian.from_dict`; `if data["last_login"]:` is Python truthiness. -/
def Librarian.from_dict (data : LibrarianDict) : Librarian :=
  let librarian := Librarian.init data.name data.librarian_id data.password
  let librarian := { librarian with login_count := data.login_count }
  match data.last_login with
  | none => librarian
  | some s =>
      if s = "" then librarian
      else { librarian with last_login := some (fromisoformat s) }

/-! ## Serialization round trips (helper lemmas shared by several claims) -/

theorem book_from_to_dict (b : Book) : Book.from_dict (Book.to_dict b) = b := by
  cases b with
  | mk title author isbn available borrowed_by borrow_date =>
    cases borrow_date with
    | none => rfl
    | some t =>
      simp only [Book.to_dict, Book.from_dict, Option.map_some', Book.init,
        if_neg (isoformat_ne_empty t), fromisoformat_isoformat]

theorem member_from_to_dict (m : Member) (now : Nat) :
    Member.from_dict (Member.to_dict m) now = m := by
  cases m with
  | mk name member_id borrowed_books registration_date =>
    simp only [Member.to_dict, Member.from_dict, Member.init,
      fromisoformat_isoformat]

theorem librarian_from_to_dict (l : Librarian) :
    Librarian.from_dict (Librarian.to_dict l) = l := by
  cases l with
  | mk name librarian_id password login_count last_login =>
    cases last_login with
    | none => rfl
    | some t =>
      simp only [Librarian.to_dict, Librarian.from_dict, Option.map_some',
        Librarian.init, if_neg (isoformat_ne_empty t), fromisoformat_isoformat]

/-! ## Python dict model: insertion-ordered association lists with unique keys

Objects are mutated in place in Python; here every mutating call returns the
updated object and the library writes it back at the key it was found under
(`updateEntry`), which is the value-semantics rendering of in-place mutation. -/

def findEntry {α : Type} (k : String) : List (String × α) → Option α
  | [] => none
  | (k', v) :: rest => if k' = k then some v else findEntry k rest

def updateEntry {α : Type} (k : String) (v : α) : List (String × α) → List (String × α)
  | [] => []
  | (k', v') :: rest =>
      if k' = k then (k', v) :: rest else (k', v') :: updateEntry k v rest

def removeEntry {α : Type} (k : String) : List (String × α) → List (String × α)
  | [] => []
  | (k', v') :: rest => if k' = k then rest else (k', v') :: removeEntry k rest

def keysOf {α : Type} (l : List (String × α)) : List String := l.map Prod.fst

/-! ## Library (src/library.py) -/

structure Library where
  name : String
  books : List (String × Book)
  members : List (String × Member)
  librarians : List (String × Librarian)
deriving DecidableEq

/-- `Library.__init__` (default name "City Library" made explicit). -/
def Library.init (name : String) : Library :=
  { name := name, books := [], members := [], librarians := [] }

/-- `Library.add_book`: insert-if-absent keyed by `book.isbn`. -/
def Library.add_book (lib : Library) (book : Book) : Library × Bool :=
  match findEntry book.isbn lib.books with
  | none => ({ lib with books := lib.books ++ [(book.isbn, book)] }, true)
  | some _ => (lib, false)

/-- `Library.remove_book`. -/
def Library.remove_book (lib : Library) (isbn : String) : Library × Bool :=
  match findEntry isbn lib.books with
  | none => (lib, false)
  | some book =>
      if book.is_available then
        ({ lib with books := removeEntry isbn lib.books }, true)
      else (lib, false)

def Library.find_book_by_isbn (lib : Library) (isbn : String) : Option Book :=
  findEntry isbn lib.books

/-- `Library.register_member`: insert-if-absent keyed by `member.member_id`. -/
def Library.register_member (lib : Library) (member : Member) : Library × Bool :=
  match findEntry member.member_id lib.members with
  | none => ({ lib with members := lib.members ++ [(member.member_id, member)] }, true)
  | some _ => (lib, false)

/-- `Library.remove_member`. -/
def Library.remove_member (lib : Library) (member_id : String) : Library × Bool :=
  match findEntry member_id lib.members with
  | none => (lib, false)
  | some member =>
      if member.get_borrowed_count = 0 then
        ({ lib with members := removeEntry member_id lib.members }, true)
      else (lib, false)

def Library.find_member (lib : Library) (member_id : String) : Option Member :=
  findEntry member_id lib.members

/-- `Library.add_librarian`. -/
def Library.add_librarian (lib : Library) (librarian : Librarian) : Library × Bool :=
  match findEntry librarian.librarian_id lib.librarians with
  | none =>
      ({ lib with librarians := lib.librarians ++ [(librarian.librarian_id, librarian)] },
       true)
  | some _ => (lib, false)

def Library.find_librarian (lib : Library) (librarian_id : String) : Option Librarian :=
  findEntry librarian_id lib.librarians

/-- `Library.borrow_book`: the two-phase transaction.  Note the Python `and`
short-circuit: `member.borrow_book` only runs when `book.borrow` returned
True, and mutations done before a failing second phase persist. -/
def Library.borrow_book (lib : Library) (member_id isbn : String) (now : Nat) :
    Library × (Bool × String) :=
  match lib.find_member member_id with
  | none => (lib, (false, "Member not found"))
  | some member =>
    match lib.find_book_by_isbn isbn with
    | none => (lib, (false, "Book not found"))
    | some book =>
      if !book.is_available then (lib, (false, "Book is not available"))
      else
        let bres := book.borrow member_id now
        if bres.2 then
          let mres := member.borrow_book isbn
          let lib' := { lib with books := updateEntry isbn bres.1 lib.books,
                                 members := updateEntry member_id mres.1 lib.members }
          if mres.2 then
            (lib', (true, "Book \x27" ++ book.title ++ "\x27 borrowed successfully"))
          else (lib', (false, "Failed to borrow book"))
        else
          ({ lib with books := updateEntry isbn bres.1 lib.books },
           (false, "Failed to borrow book"))

/-- `Library.return_book`. -/
def Library.return_book (lib : Library) (member_id isbn : String) :
    Library × (Bool × String) :=
  match lib.find_member member_id with
  | none => (lib, (false, "Member not found"))
  | some member =>
    match lib.find_book_by_isbn isbn with
    | none => (lib, (false, "Book not found"))
    | some book =>
      if !member.has_borrowed isbn then
        (lib, (false, "Member has not borrowed this book"))
      else
        let bres := book.return_book
        if bres.2 then
          let mres := member.return_book isbn
          let lib' := { lib with books := updateEntry isbn bres.1 lib.books,
                                 members := updateEntry member_id mres.1 lib.members }
          if mres.2 then
            (lib', (true, "Book \x27" ++ book.title ++ "\x27 returned successfully"))
          else (lib', (false, "Failed to return book"))
        else
          ({ lib with books := updateEntry isbn bres.1 lib.books },
           (false, "Failed to return book"))

/-! ## Librarian administrative delegations (src/librarian.py lines 78-128) -/

/-- `Librarian.add_book`: pure delegation to `Library.add_book`. -/
def Librarian.add_book (_self : Librarian) (library : Library) (book : Book) :
    Library × Bool :=
  library.add_book book

/-- `Librarian.remove_book`: pure delegation. -/
def Librarian.remove_book (_self : Librarian) (library : Library) (isbn : String) :
    Library × Bool :=
  library.remove_book isbn

/-- `Librarian.register_member`: pure delegation. -/
def Librarian.register_member (_self : Librarian) (library : Library) (member : Member) :
    Library × Bool :=
  library.register_member member

/-- `Librarian.remove_member`: pure delegation. -/
def Librarian.remove_member (_self : Librarian) (library : Library) (member_id : String) :
    Library × Bool :=
  library.remove_member member_id

/-! ## Association-list lemmas -/

theorem findEntry_append_of_some {α : Type} {k : String} {l₁ l₂ : List (String × α)}
    {v : α} (h : findEntry k l₁ = some v) : findEntry k (l₁ ++ l₂) = some v := by
  induction l₁ with
  | nil => simp [findEntry] at h
  | cons hd tl ih =>
    obtain ⟨k', v'⟩ := hd
    simp only [findEntry, List.cons_append] at h ⊢
    by_cases hk : k' = k
    · simpa [hk] using h
    · rw [if_neg hk] at h ⊢
      exact ih h

theorem findEntry_append_of_none {α : Type} {k : String} {l₁ : List (String × α)}
    (h : findEntry k l₁ = none) (l₂ : List (String × α)) :
    findEntry k (l₁ ++ l₂) = findEntry k l₂ := by
  induction l₁ with
  | nil => rfl
  | cons hd tl ih =>
    obtain ⟨k', v'⟩ := hd
    simp only [findEntry, List.cons_append] at h ⊢
    by_cases hk : k' = k
    · simp [hk] at h
    · rw [if_neg hk] at h ⊢
      exact ih h

theorem findEntry_eq_none_iff {α : Type} {k : String} {l : List (String × α)} :
    findEntry k l = none ↔ k ∉ keysOf l := by
  induction l with
  | nil => simp [findEntry, keysOf]
  | cons hd tl ih =>
    obtain ⟨k', v'⟩ := hd
    by_cases hk : k' = k
    · simp [findEntry, keysOf, hk]
    · simp [findEntry, keysOf, hk, ih, Ne.symm hk]

theorem mem_keysOf_of_findEntry {α : Type} {k : String} {l : List (String × α)}
    {v : α} (h : findEntry k l = some v) : k ∈ keysOf l := by
  by_contra hk
  rw [← findEntry_eq_none_iff] at hk
  rw [hk] at h
  exact Option.noConfusion h

theorem findEntry_update_ne {α : Type} {k k' : String} {v : α}
    {l : List (String × α)} (h : k' ≠ k) :
    findEntry k' (updateEntry k v l) = findEntry k' l := by
  induction l with
  | nil => rfl
  | cons hd tl ih =>
    obtain ⟨k₀, v₀⟩ := hd
    by_cases hk : k₀ = k
    · have hne : k₀ ≠ k' := fun hh => h (hh.symm.trans hk)
      simp only [updateEntry, if_pos hk, findEntry, if_neg hne]
    · simp only [updateEntry, if_neg hk, findEntry]
      by_cases hk' : k₀ = k'
      · simp [hk']
      · simp [hk', ih]

theorem findEntry_update_self {α : Type} {k : String} {v w : α}
    {l : List (String × α)} (h : findEntry k l = some w) :
    findEntry k (updateEntry k v l) = some v := by
  induction l with
  | nil => simp [findEntry] at h
  | cons hd tl ih =>
    obtain ⟨k₀, v₀⟩ := hd
    by_cases hk : k₀ = k
    · simp [updateEntry, findEntry, hk]
    · simp only [findEntry, if_neg hk] at h
      simp only [updateEntry, if_neg hk, findEntry, if_neg hk]
      exact ih h

theorem keysOf_update {α : Type} (k : String) (v : α) (l : List (String × α)) :
    keysOf (updateEntry k v l) = keysOf l := by
  induction l with
  | nil => rfl
  | cons hd tl ih =>
    obtain ⟨k₀, v₀⟩ := hd
    by_cases hk : k₀ = k
    · simp [updateEntry, keysOf, hk]
    · simp only [updateEntry, if_neg hk, keysOf, List.map_cons] at ih ⊢
      rw [ih]

theorem updateEntry_self {α : Type} {k : String} {v : α} {l : List (String × α)}
    (h : findEntry k l = some v) : updateEntry k v l = l := by
  induction l with
  | nil => rfl
  | cons hd tl ih =>
    obtain ⟨k₀, v₀⟩ := hd
    by_cases hk : k₀ = k
    · simp only [findEntry, if_pos hk] at h
      obtain rfl : v₀ = v := Option.some.inj h
      simp [updateEntry, hk]
    · simp only [findEntry, if_neg hk] at h
      simp [updateEntry, hk, ih h]

theorem updateEntry_updateEntry {α : Type} (k : String) (v₁ v₂ : α)
    (l : List (String × α)) :
    updateEntry k v₂ (updateEntry k v₁ l) = updateEntry k v₂ l := by
  induction l with
  | nil => rfl
  | cons hd tl ih =>
    obtain ⟨k₀, v₀⟩ := hd
    by_cases hk : k₀ = k
    · simp [updateEntry, hk]
    · simp [updateEntry, hk, ih]

theorem findEntry_remove_ne {α : Type} {k k' : String} {l : List (String × α)}
    (h : k' ≠ k) : findEntry k' (removeEntry k l) = findEntry k' l := by
  induction l with
  | nil => rfl
  | cons hd tl ih =>
    obtain ⟨k₀, v₀⟩ := hd
    by_cases hk : k₀ = k
    · have hne : k₀ ≠ k' := fun hh => h (hh.symm.trans hk)
      simp only [removeEntry, if_pos hk, findEntry, if_neg hne]
    · simp only [removeEntry, if_neg hk, findEntry]
      by_cases hk' : k₀ = k'
      · simp [hk']
      · simp [hk', ih]

theorem removeEntry_sublist {α : Type} (k : String) (l : List (String × α)) :
    List.Sublist (removeEntry k l) l := by
  induction l with
  | nil => exact List.Sublist.refl _
  | cons hd tl ih =>
    obtain ⟨k₀, v₀⟩ := hd
    by_cases hk : k₀ = k
    · simp only [removeEntry, if_pos hk]
      exact List.sublist_cons_self _ _
    · simp only [removeEntry, if_neg hk]
      exact ih.cons₂ _

theorem keysOf_remove_nodup {α : Type} {k : String} {l : List (String × α)}
    (h : (keysOf l).Nodup) : (keysOf (removeEntry k l)).Nodup :=
  List.Nodup.sublist ((removeEntry_sublist k l).map Prod.fst) h

theorem findEntry_remove_self {α : Type} {k : String} {l : List (String × α)}
    (h : (keysOf l).Nodup) : findEntry k (removeEntry k l) = none := by
  induction l with
  | nil => rfl
  | cons hd tl ih =>
    obtain ⟨k₀, v₀⟩ := hd
    simp only [keysOf, List.map_cons, List.nodup_cons] at h
    by_cases hk : k₀ = k
    · subst hk
      simp only [removeEntry, if_pos rfl]
      rw [findEntry_eq_none_iff]
      exact h.1
    · simp only [removeEntry, if_neg hk, findEntry, if_neg hk]
      exact ih h.2

theorem findEntry_append_singleton_self {α : Type} {k : String}
    {l : List (String × α)} (h : findEntry k l = none) (v : α) :
    findEntry k (l ++ [(k, v)]) = some v := by
  rw [findEntry_append_of_none h]
  simp [findEntry]

theorem findEntry_append_singleton_ne {α : Type} {k k' : String}
    {l : List (String × α)} (h : k' ≠ k) (v : α) :
    findEntry k' (l ++ [(k, v)]) = findEntry k' l := by
  cases hf : findEntry k' l with
  | some w => exact findEntry_append_of_some hf
  | none =>
    rw [findEntry_append_of_none hf]
    simp [findEntry, Ne.symm h, hf]

theorem findEntry_append_singleton_cases {α : Type} {k k' : String}
    {l : List (String × α)} {v v' : α}
    (h : findEntry k' (l ++ [(k, v)]) = some v') :
    findEntry k' l = some v' ∨ (k' = k ∧ v' = v ∧ findEntry k' l = none) := by
  cases hf : findEntry k' l with
  | some w =>
    rw [findEntry_append_of_some hf] at h
    exact Or.inl (congrArg some (Option.some.inj h))
  | none =>
    rw [findEntry_append_of_none hf] at h
    simp only [findEntry] at h
    by_cases hk : k = k'
    · rw [if_pos hk] at h
      exact Or.inr ⟨hk.symm, (Option.some.inj h).symm, rfl⟩
    · rw [if_neg hk] at h
      exact Option.noConfusion h

theorem keysOf_append_singleton_nodup {α : Type} {k : String}
    {l : List (String × α)} (hn : (keysOf l).Nodup)
    (hf : findEntry k l = none) (v : α) :
    (keysOf (l ++ [(k, v)])).Nodup := by
  have hk : k ∉ keysOf l := findEntry_eq_none_iff.mp hf
  simp only [keysOf, List.map_append, List.map_cons, List.map_nil]
  rw [List.nodup_append]
  refine ⟨hn, List.nodup_singleton k, ?_⟩
  intro a ha hak
  rw [List.mem_singleton] at hak
  exact hk (hak ▸ ha)

/-! ## Reachable library states and the cross-entity invariant -/

/-- Library states reachable from an empty library through the public
operations (books and members enter via their constructors, as in the
repository's usage). -/
inductive Reachable : Library → Prop where
  | init (name : String) : Reachable (Library.init name)
  | add_book {lib : Library} (title author isbn : String) :
      Reachable lib → Reachable (lib.add_book (Book.init title author isbn)).1
  | register_member {lib : Library} (name member_id : String) (now : Nat) :
      Reachable lib → Reachable (lib.register_member (Member.init name member_id now)).1
  | add_librarian {lib : Library} (librarian : Librarian) :
      Reachable lib → Reachable (lib.add_librarian librarian).1
  | remove_book {lib : Library} (isbn : String) :
      Reachable lib → Reachable (lib.remove_book isbn).1
  | remove_member {lib : Library} (member_id : String) :
      Reachable lib → Reachable (lib.remove_member member_id).1
  | borrow_book {lib : Library} (member_id isbn : String) (now : Nat) :
      Reachable lib → Reachable (lib.borrow_book member_id isbn now).1
  | return_book {lib : Library} (member_id isbn : String) :
      Reachable lib → Reachable (lib.return_book member_id isbn).1

/-- The cross-entity consistency invariant maintained by the `Library`
transactions. -/
structure Inv (lib : Library) : Prop where
  books_nodup : (keysOf lib.books).Nodup
  members_nodup : (keysOf lib.members).Nodup
  book_key : ∀ k b, findEntry k lib.books = some b → b.isbn = k
  member_key : ∀ k m, findEntry k lib.members = some m → m.member_id = k
  avail_clean : ∀ k b, findEntry k lib.books = some b → b.available = true →
      b.borrowed_by = none ∧ b.borrow_date = none
  borrowed_linked : ∀ k b, findEntry k lib.books = some b → b.available = false →
      ∃ m, b.borrowed_by = some m.member_id ∧
        findEntry m.member_id lib.members = some m ∧ k ∈ m.borrowed_books ∧
        b.borrow_date ≠ none
  held_linked : ∀ k m, findEntry k lib.members = some m →
      ∀ i ∈ m.borrowed_books,
      ∃ b, findEntry i lib.books = some b ∧ b.available = false ∧
        b.borrowed_by = some m.member_id
  held_nodup : ∀ k m, findEntry k lib.members = some m → m.borrowed_books.Nodup

/-! ### Equation lemmas for the transactional operations -/

theorem borrow_book_member_missing {lib : Library} {member_id isbn : String}
    {now : Nat} (hm : findEntry member_id lib.members = none) :
    lib.borrow_book member_id isbn now = (lib, (false, "Member not found")) := by
  simp [Library.borrow_book, Library.find_member, hm]

theorem borrow_book_book_missing {lib : Library} {member_id isbn : String}
    {now : Nat} {member : Member}
    (hm : findEntry member_id lib.members = some member)
    (hb : findEntry isbn lib.books = none) :
    lib.borrow_book member_id isbn now = (lib, (false, "Book not found")) := by
  simp [Library.borrow_book, Library.find_member, Library.find_book_by_isbn, hm, hb]

theorem borrow_book_unavailable {lib : Library} {member_id isbn : String}
    {now : Nat} {member : Member} {book : Book}
    (hm : findEntry member_id lib.members = some member)
    (hb : findEntry isbn lib.books = some book)
    (hav : book.available = false) :
    lib.borrow_book member_id isbn now = (lib, (false, "Book is not available")) := by
  simp [Library.borrow_book, Library.find_member, Library.find_book_by_isbn,
    Book.is_available, hm, hb, hav]

theorem borrow_book_success_eq {lib : Library} {member_id isbn : String}
    {now : Nat} {member : Member} {book : Book}
    (hm : findEntry member_id lib.members = some member)
    (hb : findEntry isbn lib.books = some book)
    (hav : book.available = true)
    (hnotin : isbn ∉ member.borrowed_books) :
    lib.borrow_book member_id isbn now =
      ({ lib with
          books := updateEntry isbn
            { book with available := false, borrowed_by := some member_id,
                        borrow_date := some now } lib.books,
          members := updateEntry member_id
            { member with borrowed_books := member.borrowed_books ++ [isbn] }
            lib.members },
       (true, "Book \x27" ++ book.title ++ "\x27 borrowed successfully")) := by
  simp [Library.borrow_book, Library.find_member, Library.find_book_by_isbn,
    Book.is_available, hm, hb, hav, Book.borrow, Member.borrow_book, hnotin]

theorem return_book_member_missing {lib : Library} {member_id isbn : String}
    (hm : findEntry member_id lib.members = none) :
    lib.return_book member_id isbn = (lib, (false, "Member not found")) := by
  simp [Library.return_book, Library.find_member, hm]

theorem return_book_book_missing {lib : Library} {member_id isbn : String}
    {member : Member}
    (hm : findEntry member_id lib.members = some member)
    (hb : findEntry isbn lib.books = none) :
    lib.return_book member_id isbn = (lib, (false, "Book not found")) := by
  simp [Library.return_book, Library.find_member, Library.find_book_by_isbn, hm, hb]

theorem return_book_not_borrowed {lib : Library} {member_id isbn : String}
    {member : Member} {book : Book}
    (hm : findEntry member_id lib.members = some member)
    (hb : findEntry isbn lib.books = some book)
    (hnb : isbn ∉ member.borrowed_books) :
    lib.return_book member_id isbn =
      (lib, (false, "Member has not borrowed this book")) := by
  simp [Library.return_book, Library.find_member, Library.find_book_by_isbn,
    Member.has_borrowed, hm, hb, hnb]

theorem return_book_success_eq {lib : Library} {member_id isbn : String}
    {member : Member} {book : Book}
    (hm : findEntry member_id lib.members = some member)
    (hb : findEntry isbn lib.books = some book)
    (hin : isbn ∈ member.borrowed_books)
    (hav : book.available = false) :
    lib.return_book member_id isbn =
      ({ lib with
          books := updateEntry isbn
            { book with available := true, borrowed_by := none,
                        borrow_date := none } lib.books,
          members := updateEntry member_id
            { member with borrowed_books := member.borrowed_books.erase isbn }
            lib.members },
       (true, "Book \x27" ++ book.title ++ "\x27 returned successfully")) := by
  simp [Library.return_book, Library.find_member, Library.find_book_by_isbn,
    Member.has_borrowed, hm, hb, hin, Book.return_book, Member.return_book, hav]

/-- The defensive branch of `return_book`: the member records the ISBN but the
book is already available (impossible in reachable states, possible in raw
ones); `Book.return_book` fails and the generic failure is reported. -/
theorem return_book_defensive_eq {lib : Library} {member_id isbn : String}
    {member : Member} {book : Book}
    (hm : findEntry member_id lib.members = some member)
    (hb : findEntry isbn lib.books = some book)
    (hin : isbn ∈ member.borrowed_books)
    (hav : book.available = true) :
    lib.return_book member_id isbn =
      ({ lib with books := updateEntry isbn book lib.books },
       (false, "Failed to return book")) := by
  simp [Library.return_book, Library.find_member, Library.find_book_by_isbn,
    Member.has_borrowed, hm, hb, hin, Book.return_book, hav]

theorem nodup_append_singleton {l : List String} {a : String}
    (hn : l.Nodup) (ha : a ∉ l) : (l ++ [a]).Nodup := by
  rw [List.nodup_append]
  refine ⟨hn, List.nodup_singleton a, ?_⟩
  intro x hx hxa
  rw [List.mem_singleton] at hxa
  exact ha (hxa ▸ hx)

theorem inv_init (name : String) : Inv (Library.init name) := by
  constructor <;> simp [Library.init, keysOf, findEntry]

theorem inv_add_librarian {lib : Library} (h : Inv lib) (librarian : Librarian) :
    Inv (lib.add_librarian librarian).1 := by
  unfold Library.add_librarian
  cases hf : findEntry librarian.librarian_id lib.librarians with
  | some w => exact h
  | none =>
    exact ⟨h.books_nodup, h.members_nodup, h.book_key, h.member_key,
      h.avail_clean, h.borrowed_linked, h.held_linked, h.held_nodup⟩

theorem inv_add_book {lib : Library} (h : Inv lib) (title author isbn : String) :
    Inv (lib.add_book (Book.init title author isbn)).1 := by
  unfold Library.add_book
  cases hf : findEntry (Book.init title author isbn).isbn lib.books with
  | some w => exact h
  | none =>
    refine ⟨keysOf_append_singleton_nodup h.books_nodup hf _, h.members_nodup,
      ?_, h.member_key, ?_, ?_, ?_, h.held_nodup⟩
    · intro k b hkb
      rcases findEntry_append_singleton_cases hkb with hold | ⟨hk, hv, -⟩
      · exact h.book_key k b hold
      · rw [hv, hk]
    · intro k b hkb hav
      rcases findEntry_append_singleton_cases hkb with hold | ⟨hk, hv, -⟩
      · exact h.avail_clean k b hold hav
      · subst hv; exact ⟨rfl, rfl⟩
    · intro k b hkb hunav
      rcases findEntry_append_singleton_cases hkb with hold | ⟨hk, hv, -⟩
      · obtain ⟨m, hby, hmfind, hkmem, hdate⟩ := h.borrowed_linked k b hold hunav
        exact ⟨m, hby, hmfind, hkmem, hdate⟩
      · subst hv; simp [Book.init] at hunav
    · intro k m hkm j hj
      obtain ⟨b, hbfind, hunav, hby⟩ := h.held_linked k m hkm j hj
      exact ⟨b, findEntry_append_of_some hbfind, hunav, hby⟩

theorem inv_register_member {lib : Library} (h : Inv lib)
    (name member_id : String) (now : Nat) :
    Inv (lib.register_member (Member.init name member_id now)).1 := by
  unfold Library.register_member
  cases hf : findEntry (Member.init name member_id now).member_id lib.members with
  | some w => exact h
  | none =>
    refine ⟨h.books_nodup, keysOf_append_singleton_nodup h.members_nodup hf _,
      h.book_key, ?_, h.avail_clean, ?_, ?_, ?_⟩
    · intro k m hkm
      rcases findEntry_append_singleton_cases hkm with hold | ⟨hk, hv, -⟩
      · exact h.member_key k m hold
      · rw [hv, hk]
    · intro k b hkb hunav
      obtain ⟨m, hby, hmfind, hkmem, hdate⟩ := h.borrowed_linked k b hkb hunav
      exact ⟨m, hby, findEntry_append_of_some hmfind, hkmem, hdate⟩
    · intro k m hkm j hj
      rcases findEntry_append_singleton_cases hkm with hold | ⟨hk, hv, -⟩
      · exact h.held_linked k m hold j hj
      · subst hv; simp [Member.init] at hj
    · intro k m hkm
      rcases findEntry_append_singleton_cases hkm with hold | ⟨hk, hv, -⟩
      · exact h.held_nodup k m hold
      · subst hv; simp [Member.init]

theorem remove_book_none_eq {lib : Library} {isbn : String}
    (hf : findEntry isbn lib.books = none) :
    lib.remove_book isbn = (lib, false) := by
  simp [Library.remove_book, hf]

theorem remove_book_avail_eq {lib : Library} {isbn : String} {book : Book}
    (hf : findEntry isbn lib.books = some book) (hav : book.available = true) :
    lib.remove_book isbn = ({ lib with books := removeEntry isbn lib.books }, true) := by
  simp [Library.remove_book, hf, Book.is_available, hav]

theorem remove_book_unavail_eq {lib : Library} {isbn : String} {book : Book}
    (hf : findEntry isbn lib.books = some book) (hav : book.available = false) :
    lib.remove_book isbn = (lib, false) := by
  simp [Library.remove_book, hf, Book.is_available, hav]

theorem remove_member_none_eq {lib : Library} {member_id : String}
    (hf : findEntry member_id lib.members = none) :
    lib.remove_member member_id = (lib, false) := by
  simp [Library.remove_member, hf]

theorem remove_member_zero_eq {lib : Library} {member_id : String} {member : Member}
    (hf : findEntry member_id lib.members = some member)
    (hcnt : member.get_borrowed_count = 0) :
    lib.remove_member member_id =
      ({ lib with members := removeEntry member_id lib.members }, true) := by
  simp [Library.remove_member, hf, hcnt]

theorem remove_member_pos_eq {lib : Library} {member_id : String} {member : Member}
    (hf : findEntry member_id lib.members = some member)
    (hcnt : member.get_borrowed_count ≠ 0) :
    lib.remove_member member_id = (lib, false) := by
  simp [Library.remove_member, hf, hcnt]

theorem add_book_new_eq {lib : Library} {book : Book}
    (hf : findEntry book.isbn lib.books = none) :
    lib.add_book book =
      ({ lib with books := lib.books ++ [(book.isbn, book)] }, true) := by
  simp [Library.add_book, hf]

theorem add_book_dup_eq {lib : Library} {book : Book} {b₀ : Book}
    (hf : findEntry book.isbn lib.books = some b₀) :
    lib.add_book book = (lib, false) := by
  simp [Library.add_book, hf]

theorem register_member_new_eq {lib : Library} {member : Member}
    (hf : findEntry member.member_id lib.members = none) :
    lib.register_member member =
      ({ lib with members := lib.members ++ [(member.member_id, member)] }, true) := by
  simp [Library.register_member, hf]

theorem register_member_dup_eq {lib : Library} {member : Member} {m₀ : Member}
    (hf : findEntry member.member_id lib.members = some m₀) :
    lib.register_member member = (lib, false) := by
  simp [Library.register_member, hf]

theorem inv_remove_book {lib : Library} (h : Inv lib) (isbn : String) :
    Inv (lib.remove_book isbn).1 := by
  cases hf : findEntry isbn lib.books with
  | none => rw [remove_book_none_eq hf]; exact h
  | some book =>
    by_cases hav : book.available = true
    · rw [remove_book_avail_eq hf hav]
      dsimp only
      refine ⟨keysOf_remove_nodup h.books_nodup, h.members_nodup, ?_, h.member_key,
        ?_, ?_, ?_, h.held_nodup⟩
      · intro k b hkb
        by_cases hk : k = isbn
        · subst hk
          rw [findEntry_remove_self h.books_nodup] at hkb
          exact Option.noConfusion hkb
        · rw [findEntry_remove_ne hk] at hkb
          exact h.book_key k b hkb
      · intro k b hkb
        by_cases hk : k = isbn
        · subst hk
          rw [findEntry_remove_self h.books_nodup] at hkb
          exact Option.noConfusion hkb
        · rw [findEntry_remove_ne hk] at hkb
          exact h.avail_clean k b hkb
      · intro k b hkb hunav
        by_cases hk : k = isbn
        · subst hk
          rw [findEntry_remove_self h.books_nodup] at hkb
          exact Option.noConfusion hkb
        · rw [findEntry_remove_ne hk] at hkb
          exact h.borrowed_linked k b hkb hunav
      · intro k m hkm j hj
        obtain ⟨b, hbfind, hunav, hby⟩ := h.held_linked k m hkm j hj
        have hj_ne : j ≠ isbn := by
          intro hje
          subst hje
          rw [hf] at hbfind
          obtain rfl : book = b := Option.some.inj hbfind
          rw [hav] at hunav
          exact Bool.noConfusion hunav
        rw [findEntry_remove_ne hj_ne]
        exact ⟨b, hbfind, hunav, hby⟩
    · have hav' : book.available = false := by
        revert hav; cases book.available <;> simp
      rw [remove_book_unavail_eq hf hav']
      exact h

theorem inv_remove_member {lib : Library} (h : Inv lib) (member_id : String) :
    Inv (lib.remove_member member_id).1 := by
  cases hf : findEntry member_id lib.members with
  | none => rw [remove_member_none_eq hf]; exact h
  | some member =>
    by_cases hcnt : member.get_borrowed_count = 0
    · rw [remove_member_zero_eq hf hcnt]
      dsimp only
      have hempty : member.borrowed_books = [] :=
        List.length_eq_zero.mp hcnt
      refine ⟨h.books_nodup, keysOf_remove_nodup h.members_nodup, h.book_key,
        ?_, h.avail_clean, ?_, ?_, ?_⟩
      · intro k m hkm
        by_cases hk : k = member_id
        · subst hk
          rw [findEntry_remove_self h.members_nodup] at hkm
          exact Option.noConfusion hkm
        · rw [findEntry_remove_ne hk] at hkm
          exact h.member_key k m hkm
      · intro k b hkb hunav
        obtain ⟨m, hby, hmfind, hkmem, hdate⟩ := h.borrowed_linked k b hkb hunav
        have hne : m.member_id ≠ member_id := by
          intro hme
          rw [hme, hf] at hmfind
          obtain rfl : member = m := Option.some.inj hmfind
          rw [hempty] at hkmem
          exact List.not_mem_nil k hkmem
        refine ⟨m, hby, ?_, hkmem, hdate⟩
        show findEntry m.member_id (removeEntry member_id lib.members) = some m
        rw [findEntry_remove_ne hne]
        exact hmfind
      · intro k m hkm j hj
        by_cases hk : k = member_id
        · subst hk
          rw [findEntry_remove_self h.members_nodup] at hkm
          exact Option.noConfusion hkm
        · rw [findEntry_remove_ne hk] at hkm
          exact h.held_linked k m hkm j hj
      · intro k m hkm
        by_cases hk : k = member_id
        · subst hk
          rw [findEntry_remove_self h.members_nodup] at hkm
          exact Option.noConfusion hkm
        · rw [findEntry_remove_ne hk] at hkm
          exact h.held_nodup k m hkm
    · rw [remove_member_pos_eq hf hcnt]
      exact h

theorem inv_borrow {lib : Library} (h : Inv lib) (member_id isbn : String)
    (now : Nat) : Inv (lib.borrow_book member_id isbn now).1 := by
  cases hm : findEntry member_id lib.members with
  | none => rw [borrow_book_member_missing hm]; exact h
  | some member =>
    cases hb : findEntry isbn lib.books with
    | none => rw [borrow_book_book_missing hm hb]; exact h
    | some book =>
      by_cases hav : book.available = true
      · have hnotin : isbn ∉ member.borrowed_books := by
          intro hin
          obtain ⟨b₂, hfind₂, hunav₂, -⟩ := h.held_linked member_id member hm isbn hin
          rw [hb] at hfind₂
          obtain rfl : book = b₂ := Option.some.inj hfind₂
          rw [hav] at hunav₂
          exact Bool.noConfusion hunav₂
        rw [borrow_book_success_eq hm hb hav hnotin]
        have hmid : member.member_id = member_id := h.member_key member_id member hm
        have hisbn : book.isbn = isbn := h.book_key isbn book hb
        set book2 := { book with available := false, borrowed_by := some member_id, borrow_date := some now } with hbook2
        set member2 := { member with borrowed_books := member.borrowed_books ++ [isbn] } with hmember2
        have hfb : ∀ k, findEntry k (updateEntry isbn book2 lib.books) =
            if k = isbn then some book2 else findEntry k lib.books := by
          intro k
          by_cases hk : k = isbn
          · subst hk; rw [if_pos rfl]; exact findEntry_update_self hb
          · rw [if_neg hk]; exact findEntry_update_ne hk
        have hfm : ∀ k, findEntry k (updateEntry member_id member2 lib.members) =
            if k = member_id then some member2 else findEntry k lib.members := by
          intro k
          by_cases hk : k = member_id
          · subst hk; rw [if_pos rfl]; exact findEntry_update_self hm
          · rw [if_neg hk]; exact findEntry_update_ne hk
        have hb2isbn : book2.isbn = isbn := by rw [hbook2]; exact hisbn
        have hb2avail : book2.available = false := by rw [hbook2]
        have hb2by : book2.borrowed_by = some member_id := by rw [hbook2]
        have hb2date : book2.borrow_date = some now := by rw [hbook2]
        have hm2id : member2.member_id = member_id := by rw [hmember2]; exact hmid
        have hm2books : member2.borrowed_books = member.borrowed_books ++ [isbn] := by
          rw [hmember2]
        constructor
        · show (keysOf (updateEntry isbn book2 lib.books)).Nodup
          rw [keysOf_update]; exact h.books_nodup
        · show (keysOf (updateEntry member_id member2 lib.members)).Nodup
          rw [keysOf_update]; exact h.members_nodup
        · intro k b hkb
          rw [hfb k] at hkb
          by_cases hk : k = isbn
          · rw [if_pos hk] at hkb
            obtain rfl := Option.some.inj hkb
            rw [hb2isbn, hk]
          · rw [if_neg hk] at hkb
            exact h.book_key k b hkb
        · intro k m hkm
          rw [hfm k] at hkm
          by_cases hk : k = member_id
          · rw [if_pos hk] at hkm
            obtain rfl := Option.some.inj hkm
            rw [hm2id, hk]
          · rw [if_neg hk] at hkm
            exact h.member_key k m hkm
        · intro k b hkb hbav
          rw [hfb k] at hkb
          by_cases hk : k = isbn
          · rw [if_pos hk] at hkb
            obtain rfl := Option.some.inj hkb
            rw [hb2avail] at hbav
            exact Bool.noConfusion hbav
          · rw [if_neg hk] at hkb
            exact h.avail_clean k b hkb hbav
        · intro k b hkb hunav
          rw [hfb k] at hkb
          by_cases hk : k = isbn
          · rw [if_pos hk] at hkb
            obtain rfl := Option.some.inj hkb
            refine ⟨member2, ?_, ?_, ?_, ?_⟩
            · simp [hb2by, hm2id, hmid]
            · rw [hm2id, hfm, if_pos rfl]
            · rw [hm2books, hk]
              exact List.mem_append_right _ (List.mem_singleton_self isbn)
            · rw [hb2date]
              exact fun hc => Option.noConfusion hc
          · rw [if_neg hk] at hkb
            obtain ⟨m₂, hby₂, hm₂, hkmem₂, hdate₂⟩ := h.borrowed_linked k b hkb hunav
            by_cases hmm : m₂.member_id = member_id
            · obtain rfl : member = m₂ := by
                rw [hmm, hm] at hm₂
                exact Option.some.inj hm₂
              refine ⟨member2, ?_, ?_, ?_, hdate₂⟩
              · simp [hby₂, hm2id, hmm, hmid]
              · rw [hm2id, hfm, if_pos rfl]
              · rw [hm2books]
                exact List.mem_append_left _ hkmem₂
            · refine ⟨m₂, hby₂, ?_, hkmem₂, hdate₂⟩
              rw [hfm, if_neg hmm]
              exact hm₂
        · intro k m hkm j hj
          rw [hfm k] at hkm
          by_cases hk : k = member_id
          · rw [if_pos hk] at hkm
            obtain rfl := Option.some.inj hkm
            rw [hm2books] at hj
            rcases List.mem_append.mp hj with hjl | hjr
            · obtain ⟨b₂, hfind₂, hunav₂, hby₂⟩ :=
                h.held_linked member_id member hm j hjl
              have hj_ne : j ≠ isbn := by
                intro hje
                rw [hje, hb] at hfind₂
                obtain rfl : book = b₂ := Option.some.inj hfind₂
                rw [hav] at hunav₂
                exact Bool.noConfusion hunav₂
              refine ⟨b₂, ?_, hunav₂, ?_⟩
              · rw [hfb, if_neg hj_ne]
                exact hfind₂
              · simp [hby₂, hm2id, hmid, hmid]
            · rw [List.mem_singleton] at hjr
              refine ⟨book2, ?_, hb2avail, ?_⟩
              · rw [hfb, if_pos hjr]
              · simp [hb2by, hm2id, hmid]
          · rw [if_neg hk] at hkm
            obtain ⟨b₂, hfind₂, hunav₂, hby₂⟩ := h.held_linked k m hkm j hj
            have hj_ne : j ≠ isbn := by
              intro hje
              rw [hje, hb] at hfind₂
              obtain rfl : book = b₂ := Option.some.inj hfind₂
              rw [hav] at hunav₂
              exact Bool.noConfusion hunav₂
            refine ⟨b₂, ?_, hunav₂, hby₂⟩
            rw [hfb, if_neg hj_ne]
            exact hfind₂
        · intro k m hkm
          rw [hfm k] at hkm
          by_cases hk : k = member_id
          · rw [if_pos hk] at hkm
            obtain rfl := Option.some.inj hkm
            rw [hm2books]
            exact nodup_append_singleton (h.held_nodup member_id member hm) hnotin
          · rw [if_neg hk] at hkm
            exact h.held_nodup k m hkm
      · have hav' : book.available = false := by
          revert hav; cases book.available <;> simp
        rw [borrow_book_unavailable hm hb hav']
        exact h

theorem inv_return {lib : Library} (h : Inv lib) (member_id isbn : String) :
    Inv (lib.return_book member_id isbn).1 := by
  cases hm : findEntry member_id lib.members with
  | none => rw [return_book_member_missing hm]; exact h
  | some member =>
    cases hb : findEntry isbn lib.books with
    | none => rw [return_book_book_missing hm hb]; exact h
    | some book =>
      by_cases hin : isbn ∈ member.borrowed_books
      · obtain ⟨b₃, hfind₃, hunav₃, hby₃⟩ := h.held_linked member_id member hm isbn hin
        rw [hb] at hfind₃
        obtain rfl : book = b₃ := Option.some.inj hfind₃
        rw [return_book_success_eq hm hb hin hunav₃]
        have hmid : member.member_id = member_id := h.member_key member_id member hm
        have hisbn : book.isbn = isbn := h.book_key isbn book hb
        set book2 := { book with available := true, borrowed_by := none, borrow_date := none } with hbook2
        set member2 := { member with borrowed_books := member.borrowed_books.erase isbn } with hmember2
        have hfb : ∀ k, findEntry k (updateEntry isbn book2 lib.books) =
            if k = isbn then some book2 else findEntry k lib.books := by
          intro k
          by_cases hk : k = isbn
          · subst hk; rw [if_pos rfl]; exact findEntry_update_self hb
          · rw [if_neg hk]; exact findEntry_update_ne hk
        have hfm : ∀ k, findEntry k (updateEntry member_id member2 lib.members) =
            if k = member_id then some member2 else findEntry k lib.members := by
          intro k
          by_cases hk : k = member_id
          · subst hk; rw [if_pos rfl]; exact findEntry_update_self hm
          · rw [if_neg hk]; exact findEntry_update_ne hk
        have hb2isbn : book2.isbn = isbn := by rw [hbook2]; exact hisbn
        have hb2avail : book2.available = true := by rw [hbook2]
        have hb2by : book2.borrowed_by = none := by rw [hbook2]
        have hb2date : book2.borrow_date = none := by rw [hbook2]
        have hm2id : member2.member_id = member_id := by rw [hmember2]; exact hmid
        have hm2books : member2.borrowed_books = member.borrowed_books.erase isbn := by
          rw [hmember2]
        have hnodupm : member.borrowed_books.Nodup := h.held_nodup member_id member hm
        constructor
        · show (keysOf (updateEntry isbn book2 lib.books)).Nodup
          rw [keysOf_update]; exact h.books_nodup
        · show (keysOf (updateEntry member_id member2 lib.members)).Nodup
          rw [keysOf_update]; exact h.members_nodup
        · intro k b hkb
          rw [hfb k] at hkb
          by_cases hk : k = isbn
          · rw [if_pos hk] at hkb
            obtain rfl := Option.some.inj hkb
            rw [hb2isbn, hk]
          · rw [if_neg hk] at hkb
            exact h.book_key k b hkb
        · intro k m hkm
          rw [hfm k] at hkm
          by_cases hk : k = member_id
          · rw [if_pos hk] at hkm
            obtain rfl := Option.some.inj hkm
            rw [hm2id, hk]
          · rw [if_neg hk] at hkm
            exact h.member_key k m hkm
        · intro k b hkb hbav
          rw [hfb k] at hkb
          by_cases hk : k = isbn
          · rw [if_pos hk] at hkb
            obtain rfl := Option.some.inj hkb
            exact ⟨hb2by, hb2date⟩
          · rw [if_neg hk] at hkb
            exact h.avail_clean k b hkb hbav
        · intro k b hkb hunav
          rw [hfb k] at hkb
          by_cases hk : k = isbn
          · rw [if_pos hk] at hkb
            obtain rfl := Option.some.inj hkb
            rw [hb2avail] at hunav
            exact Bool.noConfusion hunav
          · rw [if_neg hk] at hkb
            obtain ⟨m₂, hby₂, hm₂, hkmem₂, hdate₂⟩ := h.borrowed_linked k b hkb hunav
            by_cases hmm : m₂.member_id = member_id
            · obtain rfl : member = m₂ := by
                rw [hmm, hm] at hm₂
                exact Option.some.inj hm₂
              refine ⟨member2, ?_, ?_, ?_, hdate₂⟩
              · simp [hby₂, hm2id, hmm, hmid]
              · rw [hm2id, hfm, if_pos rfl]
              · rw [hm2books]
                exact (List.mem_erase_of_ne hk).mpr hkmem₂
            · refine ⟨m₂, hby₂, ?_, hkmem₂, hdate₂⟩
              rw [hfm, if_neg hmm]
              exact hm₂
        · intro k m hkm j hj
          rw [hfm k] at hkm
          by_cases hk : k = member_id
          · rw [if_pos hk] at hkm
            obtain rfl := Option.some.inj hkm
            rw [hm2books] at hj
            obtain ⟨hj_ne, hjl⟩ := (List.Nodup.mem_erase_iff hnodupm).mp hj
            obtain ⟨b₂, hfind₂, hunav₂, hby₂⟩ :=
              h.held_linked member_id member hm j hjl
            refine ⟨b₂, ?_, hunav₂, ?_⟩
            · rw [hfb, if_neg hj_ne]
              exact hfind₂
            · simp [hby₂, hm2id, hmid]
          · rw [if_neg hk] at hkm
            obtain ⟨b₂, hfind₂, hunav₂, hby₂⟩ := h.held_linked k m hkm j hj
            have hj_ne : j ≠ isbn := by
              intro hje
              rw [hje, hb] at hfind₂
              obtain rfl : book = b₂ := Option.some.inj hfind₂
              rw [hby₃] at hby₂
              have hmm : member.member_id = m.member_id := Option.some.inj hby₂
              have hmk : m.member_id = k := h.member_key k m hkm
              exact hk (by rw [← hmk, ← hmm]; exact hmid)
            refine ⟨b₂, ?_, hunav₂, hby₂⟩
            rw [hfb, if_neg hj_ne]
            exact hfind₂
        · intro k m hkm
          rw [hfm k] at hkm
          by_cases hk : k = member_id
          · rw [if_pos hk] at hkm
            obtain rfl := Option.some.inj hkm
            rw [hm2books]
            exact List.Nodup.sublist (List.erase_sublist isbn member.borrowed_books) hnodupm
          · rw [if_neg hk] at hkm
            exact h.held_nodup k m hkm
      · rw [return_book_not_borrowed hm hb hin]
        exact h

/-- Every reachable state satisfies the invariant: the two-sided transactions
keep Book and Member state consistent. -/
theorem reachable_inv {lib : Library} (h : Reachable lib) : Inv lib := by
  induction h with
  | init name => exact inv_init name
  | add_book title author isbn _ ih => exact inv_add_book ih title author isbn
  | register_member name member_id now _ ih =>
      exact inv_register_member ih name member_id now
  | add_librarian librarian _ ih => exact inv_add_librarian ih librarian
  | remove_book isbn _ ih => exact inv_remove_book ih isbn
  | remove_member member_id _ ih => exact inv_remove_member ih member_id
  | borrow_book member_id isbn now _ ih => exact inv_borrow ih member_id isbn now
  | return_book member_id isbn _ ih => exact inv_return ih member_id isbn

/-! ## Concrete fixtures (the spec's running scenario) -/

def libW0 : Library := Library.init "City Library"

def bookW : Book := Book.init "Dune" "Herbert" "111"

def memberW : Member := Member.init "Alice" "M1" 0

def libW1 : Library := (libW0.add_book bookW).1

def libW2 : Library := (libW1.register_member memberW).1

def libW3 : Library := (libW2.borrow_book "M1" "111" 5).1

def memberW3 : Member :=
  { name := "Alice", member_id := "M1", borrowed_books := ["111"],
    registration_date := 0 }

def bookW3 : Book :=
  { title := "Dune", author := "Herbert", isbn := "111", available := false,
    borrowed_by := some "M1", borrow_date := some 5 }

theorem reachableW0 : Reachable libW0 := Reachable.init "City Library"

theorem reachableW1 : Reachable libW1 :=
  Reachable.add_book "Dune" "Herbert" "111" reachableW0

theorem reachableW2 : Reachable libW2 :=
  Reachable.register_member "Alice" "M1" 0 reachableW1

theorem reachableW3 : Reachable libW3 :=
  Reachable.borrow_book "M1" "111" 5 reachableW2

/-! ## Claims -/

/-- Claim C1: in every Library state reachable from an empty library via the
public operations, a book's availability flag is false iff its borrower field
names a registered member whose borrowed-books list contains that book's ISBN;
and every held ISBN points back to a borrowed book naming that member, so no
`borrowed_by` reference is orphaned. -/
theorem C1_cross_entity_invariant {lib : Library} (h : Reachable lib) :
    (∀ k b, findEntry k lib.books = some b →
      (b.available = false ↔
        ∃ m, findEntry m.member_id lib.members = some m ∧
          b.borrowed_by = some m.member_id ∧ b.isbn ∈ m.borrowed_books)) ∧
    (∀ k m, findEntry k lib.members = some m → ∀ i ∈ m.borrowed_books,
      ∃ b, findEntry i lib.books = some b ∧ b.available = false ∧
        b.borrowed_by = some m.member_id) := by
  have hinv := reachable_inv h
  constructor
  · intro k b hkb
    constructor
    · intro hunav
      obtain ⟨m, hby, hmf, hkm, -⟩ := hinv.borrowed_linked k b hkb hunav
      have hbisbn : b.isbn = k := hinv.book_key k b hkb
      refine ⟨m, hmf, hby, ?_⟩
      rw [hbisbn]
      exact hkm
    · rintro ⟨m, hmf, hby, hbm⟩
      by_contra hav
      have hav' : b.available = true := by
        revert hav; cases b.available <;> simp
      obtain ⟨hnone, -⟩ := hinv.avail_clean k b hkb hav'
      rw [hnone] at hby
      exact Option.noConfusion hby
  · intro k m hkm i hi
    exact hinv.held_linked k m hkm i hi

theorem C1_cross_entity_invariant_witness :
    (∀ k b, findEntry k libW3.books = some b →
      (b.available = false ↔
        ∃ m, findEntry m.member_id libW3.members = some m ∧
          b.borrowed_by = some m.member_id ∧ b.isbn ∈ m.borrowed_books)) ∧
    (∀ k m, findEntry k libW3.members = some m → ∀ i ∈ m.borrowed_books,
      ∃ b, findEntry i libW3.books = some b ∧ b.available = false ∧
        b.borrowed_by = some m.member_id) :=
  C1_cross_entity_invariant reachableW3

/-- Claim C2: the failure modes of `borrow_book` and `return_book`, their
messages, the order of the checks (an earlier check dominates regardless of
later conditions), and that each failure leaves the library state unchanged. -/
theorem C2_failure_modes (lib : Library) (member_id isbn : String) (now : Nat) :
    (findEntry member_id lib.members = none →
      lib.borrow_book member_id isbn now = (lib, (false, "Member not found")) ∧
      lib.return_book member_id isbn = (lib, (false, "Member not found"))) ∧
    (∀ member, findEntry member_id lib.members = some member →
      findEntry isbn lib.books = none →
      lib.borrow_book member_id isbn now = (lib, (false, "Book not found")) ∧
      lib.return_book member_id isbn = (lib, (false, "Book not found"))) ∧
    (∀ member book, findEntry member_id lib.members = some member →
      findEntry isbn lib.books = some book → book.available = false →
      lib.borrow_book member_id isbn now = (lib, (false, "Book is not available"))) ∧
    (∀ member book, findEntry member_id lib.members = some member →
      findEntry isbn lib.books = some book → isbn ∉ member.borrowed_books →
      lib.return_book member_id isbn =
        (lib, (false, "Member has not borrowed this book"))) := by
  refine ⟨?_, ?_, ?_, ?_⟩
  · intro hm
    exact ⟨borrow_book_member_missing hm, return_book_member_missing hm⟩
  · intro member hm hb
    exact ⟨borrow_book_book_missing hm hb, return_book_book_missing hm hb⟩
  · intro member book hm hb hav
    exact borrow_book_unavailable hm hb hav
  · intro member book hm hb hnb
    exact return_book_not_borrowed hm hb hnb

theorem C2_failure_modes_witness :
    libW2.borrow_book "Mx" "111" 0 = (libW2, (false, "Member not found")) ∧
    libW2.borrow_book "M1" "999" 0 = (libW2, (false, "Book not found")) ∧
    libW3.borrow_book "M1" "111" 7 = (libW3, (false, "Book is not available")) ∧
    libW2.return_book "M1" "111" =
      (libW2, (false, "Member has not borrowed this book")) :=
  ⟨((C2_failure_modes libW2 "Mx" "111" 0).1 (by decide)).1,
   ((C2_failure_modes libW2 "M1" "999" 0).2.1 memberW (by decide) (by decide)).1,
   (C2_failure_modes libW3 "M1" "111" 7).2.2.1 memberW3 bookW3
     (by decide) (by decide) (by decide),
   (C2_failure_modes libW2 "M1" "111" 0).2.2.2 memberW bookW
     (by decide) (by decide) (by decide)⟩

/-- Claim C10: in a reachable state where a member currently holds an ISBN,
borrowing it again with the same member is rejected with the generic
"Book is not available" message and the state is unchanged. -/
theorem C10_reborrow_rejected {lib : Library} (h : Reachable lib)
    {member_id isbn : String} {member : Member}
    (hm : findEntry member_id lib.members = some member)
    (hin : isbn ∈ member.borrowed_books) (now : Nat) :
    lib.borrow_book member_id isbn now = (lib, (false, "Book is not available")) := by
  have hinv := reachable_inv h
  obtain ⟨b, hbf, hunav, -⟩ := hinv.held_linked member_id member hm isbn hin
  exact borrow_book_unavailable hm hbf hunav

theorem C10_reborrow_rejected_witness :
    libW3.borrow_book "M1" "111" 9 = (libW3, (false, "Book is not available")) :=
  @C10_reborrow_rejected libW3 reachableW3 "M1" "111" memberW3 (by decide) (by decide) 9

/-- Book values producible through the Book interface when `from_dict` is fed
only records produced by `to_dict` (the persistence layer's own output). -/
inductive BookProducible : Book → Prop where
  | init (title author isbn : String) : BookProducible (Book.init title author isbn)
  | borrow {b : Book} (member_id : String) (now : Nat) :
      BookProducible b → BookProducible (b.borrow member_id now).1
  | ret {b : Book} : BookProducible b → BookProducible b.return_book.1
  | from_to_dict {b : Book} :
      BookProducible b → BookProducible (Book.from_dict (Book.to_dict b))

/-- Claim C3 (counterexample): `Book.from_dict` accepts an arbitrary record,
so the Book interface can produce a book whose availability flag is true while
its borrower field is present — the claimed biconditional fails for it. -/
theorem C3_book_invariant_counterexample :
    ¬ ((Book.from_dict { title := "t", author := "a", isbn := "i", available := true, borrowed_by := some "M1", borrow_date := none }).available = true ↔
       ((Book.from_dict { title := "t", author := "a", isbn := "i", available := true, borrowed_by := some "M1", borrow_date := none }).borrowed_by = none ∧
        (Book.from_dict { title := "t", author := "a", isbn := "i", available := true, borrowed_by := some "M1", borrow_date := none }).borrow_date = none)) := by
  decide

/-- Claim C3 (amended): for every Book value producible through construction,
`borrow`, `return_book`, and `from_dict` applied to records produced by
`to_dict`, the availability flag is true iff the borrower identifier and the
borrow timestamp are both absent. -/
theorem C3_book_invariant {b : Book} (h : BookProducible b) :
    b.available = true ↔ (b.borrowed_by = none ∧ b.borrow_date = none) := by
  induction h with
  | init title author isbn => simp [Book.init]
  | @borrow b member_id now _ ih =>
    by_cases hav : b.available = true
    · simp [Book.borrow, hav]
    · have hav' : b.available = false := by
        revert hav; cases b.available <;> simp
      simpa [Book.borrow, hav'] using ih
  | @ret b _ ih =>
    by_cases hav : b.available = true
    · simpa [Book.return_book, hav] using ih
    · have hav' : b.available = false := by
        revert hav; cases b.available <;> simp
      simp [Book.return_book, hav']
  | @from_to_dict b _ ih =>
    rw [book_from_to_dict]
    exact ih

theorem C3_book_invariant_witness :
    (Book.init "t" "a" "i").available = true ↔
      ((Book.init "t" "a" "i").borrowed_by = none ∧
       (Book.init "t" "a" "i").borrow_date = none) :=
  C3_book_invariant (BookProducible.init "t" "a" "i")

/-- Claim C6: serialization round-trip for all three entities — `from_dict`
recovers every field of `to_dict`'s output exactly, including absent
borrower/borrow-date/last-login fields, timestamps carried through the string
codec, the member's borrowed list, and the librarian's plaintext credential
and login counter. -/
theorem C6_serialization_round_trip :
    (∀ b : Book, Book.from_dict (Book.to_dict b) = b) ∧
    (∀ (m : Member) (now : Nat), Member.from_dict (Member.to_dict m) now = m) ∧
    (∀ l : Librarian, Librarian.from_dict (Librarian.to_dict l) = l) :=
  ⟨book_from_to_dict, member_from_to_dict, librarian_from_to_dict⟩

/-- Claim C7: `remove_book` fails (returning `False`, state unchanged) when
the ISBN is unknown or the book is borrowed and otherwise deletes exactly that
book; `remove_member` fails when the ID is unknown or the member holds books
and otherwise deletes exactly that member.  The last two conjuncts state that
deletion touches no other key. -/
theorem C7_removal_preconditions (lib : Library) (isbn member_id : String) :
    (findEntry isbn lib.books = none → lib.remove_book isbn = (lib, false)) ∧
    (∀ book, findEntry isbn lib.books = some book → book.available = false →
      lib.remove_book isbn = (lib, false)) ∧
    (∀ book, findEntry isbn lib.books = some book → book.available = true →
      lib.remove_book isbn = ({ lib with books := removeEntry isbn lib.books }, true)) ∧
    (findEntry member_id lib.members = none →
      lib.remove_member member_id = (lib, false)) ∧
    (∀ member, findEntry member_id lib.members = some member →
      member.get_borrowed_count ≠ 0 → lib.remove_member member_id = (lib, false)) ∧
    (∀ member, findEntry member_id lib.members = some member →
      member.get_borrowed_count = 0 →
      lib.remove_member member_id =
        ({ lib with members := removeEntry member_id lib.members }, true)) ∧
    (∀ k, k ≠ isbn → findEntry k (removeEntry isbn lib.books) = findEntry k lib.books) ∧
    (∀ k, k ≠ member_id →
      findEntry k (removeEntry member_id lib.members) = findEntry k lib.members) := by
  refine ⟨remove_book_none_eq, ?_, ?_, remove_member_none_eq, ?_, ?_, ?_, ?_⟩
  · intro book hb hav
    exact remove_book_unavail_eq hb hav
  · intro book hb hav
    exact remove_book_avail_eq hb hav
  · intro member hm hcnt
    exact remove_member_pos_eq hm hcnt
  · intro member hm hcnt
    exact remove_member_zero_eq hm hcnt
  · intro k hk
    exact findEntry_remove_ne hk
  · intro k hk
    exact findEntry_remove_ne hk

theorem C7_removal_preconditions_witness :
    libW2.remove_book "111" = ({ libW2 with books := removeEntry "111" libW2.books }, true) ∧
    libW3.remove_book "111" = (libW3, false) ∧
    libW3.remove_member "M1" = (libW3, false) ∧
    libW2.remove_member "M1" =
      ({ libW2 with members := removeEntry "M1" libW2.members }, true) ∧
    libW2.remove_book "999" = (libW2, false) :=
  ⟨(C7_removal_preconditions libW2 "111" "M1").2.2.1 bookW (by decide) (by decide),
   (C7_removal_preconditions libW3 "111" "M1").2.1 bookW3 (by decide) (by decide),
   (C7_removal_preconditions libW3 "111" "M1").2.2.2.2.1 memberW3
     (by decide) (by decide),
   (C7_removal_preconditions libW2 "111" "M1").2.2.2.2.2.1 memberW
     (by decide) (by decide),
   (C7_removal_preconditions libW2 "999" "M1").1 (by decide)⟩

/-- Claim C8: the librarian administrative methods are pure delegations to the
corresponding `Library` operation, and their result is independent of the
librarian value — in particular of its login count, last login, or whether
`authenticate` ever succeeded (two-run statement over two librarians). -/
theorem C8_delegation (self self2 : Librarian) (library : Library) (book : Book)
    (member : Member) (isbn member_id : String) :
    (self.add_book library book = library.add_book book ∧
     self.remove_book library isbn = library.remove_book isbn ∧
     self.register_member library member = library.register_member member ∧
     self.remove_member library member_id = library.remove_member member_id) ∧
    (self.add_book library book = self2.add_book library book ∧
     self.remove_book library isbn = self2.remove_book library isbn ∧
     self.register_member library member = self2.register_member library member ∧
     self.remove_member library member_id = self2.remove_member library member_id) :=
  ⟨⟨rfl, rfl, rfl, rfl⟩, ⟨rfl, rfl, rfl, rfl⟩⟩

/-- Claim C9: `authenticate` succeeds iff the supplied password equals the
stored credential; success increments the login counter by exactly one and
records the current time as last login (credential and identity fields
untouched); failure leaves the librarian entirely unchanged. -/
theorem C9_authenticate (l : Librarian) (password : String) (now : Nat) :
    ((l.authenticate password now).2 = true ↔ l.password = password) ∧
    (l.password = password →
      l.authenticate password now =
        ({ l with login_count := l.login_count + 1, last_login := some now }, true)) ∧
    (l.password ≠ password → l.authenticate password now = (l, false)) := by
  unfold Librarian.authenticate
  by_cases h : l.password = password <;> simp [h]

def librarianW : Librarian := Librarian.init "Bob" "L1" "admin123"

theorem C9_authenticate_witness :
    ((librarianW.authenticate "admin123" 3).2 = true ↔
      librarianW.password = "admin123") ∧
    librarianW.authenticate "admin123" 3 =
      ({ librarianW with login_count := librarianW.login_count + 1,
                         last_login := some 3 }, true) ∧
    librarianW.authenticate "wrong" 3 = (librarianW, false) :=
  ⟨(C9_authenticate librarianW "admin123" 3).1,
   (C9_authenticate librarianW "admin123" 3).2.1 (by decide),
   (C9_authenticate librarianW "wrong" 3).2.2 (by decide)⟩

/-- The defensive branch of `borrow_book`: the book is available yet the
member already records the ISBN (impossible in reachable states); the book
mutation persists while the member mutation fails. -/
theorem borrow_book_defensive_eq {lib : Library} {member_id isbn : String}
    {now : Nat} {member : Member} {book : Book}
    (hm : findEntry member_id lib.members = some member)
    (hb : findEntry isbn lib.books = some book)
    (hav : book.available = true)
    (hin : isbn ∈ member.borrowed_books) :
    lib.borrow_book member_id isbn now =
      ({ lib with
          books := updateEntry isbn
            { book with available := false, borrowed_by := some member_id,
                        borrow_date := some now } lib.books,
          members := updateEntry member_id member lib.members },
       (false, "Failed to borrow book")) := by
  simp [Library.borrow_book, Library.find_member, Library.find_book_by_isbn,
    Book.is_available, hm, hb, hav, Book.borrow, Member.borrow_book, hin]

theorem erase_append_singleton {l : List String} {a : String} (h : a ∉ l) :
    (l ++ [a]).erase a = l := by
  induction l with
  | nil => simp
  | cons hd tl ih =>
    have hne : a ≠ hd := fun he => h (he ▸ List.mem_cons_self hd tl)
    rw [List.cons_append, List.erase_cons_tail]
    · rw [ih fun ht => h (List.mem_cons_of_mem hd ht)]
    · simp [Ne.symm hne]

theorem book_clear_eq (x b : Book) (ht : x.title = b.title)
    (ha : x.author = b.author) (hi : x.isbn = b.isbn)
    (hav : b.available = true) (hby : b.borrowed_by = none)
    (hbd : b.borrow_date = none) :
    ({ x with available := true, borrowed_by := none, borrow_date := none } : Book) = b := by
  cases x
  cases b
  simp_all

theorem member_clear_eq (x m : Member) (isbn : String) (hn : x.name = m.name)
    (hid : x.member_id = m.member_id)
    (hr : x.registration_date = m.registration_date)
    (hbl : x.borrowed_books.erase isbn = m.borrowed_books) :
    ({ x with borrowed_books := x.borrowed_books.erase isbn } : Member) = m := by
  cases x
  cases m
  simp_all

def bookX : Book :=
  { title := "T", author := "A", isbn := "111", available := true,
    borrowed_by := some "Z", borrow_date := some 5 }

def libX : Library :=
  { name := "L", books := [("111", bookX)],
    members := [("M1", Member.init "Alice" "M1" 0)], librarians := [] }

/-- Claim C4 (counterexample): over arbitrary library states the round trip
does not restore the Book's borrower field.  In `libX` the book is available
yet carries a stale borrower `"Z"`; `borrow` then `return` succeeds but leaves
the borrower cleared to `none` instead of restoring `some "Z"`. -/
theorem C4_round_trip_counterexample :
    (libX.borrow_book "M1" "111" 7).2.1 = true ∧
    ((libX.borrow_book "M1" "111" 7).1.return_book "M1" "111").2.1 = true ∧
    (((libX.borrow_book "M1" "111" 7).1.return_book "M1" "111").1.find_book_by_isbn "111").map Book.get_borrowed_by ≠
      (libX.find_book_by_isbn "111").map Book.get_borrowed_by := by
  decide

/-- Claim C4 (amended): in every library state where the borrowed book's
borrower and borrow-date fields are absent while it is available (true of all
reachable states), a successful `borrow_book` followed by `return_book` on the
same (member, isbn) pair succeeds and restores the entire library state —
member list, registration date and all — with the borrow date cleared back to
absent. -/
theorem C4_round_trip {lib lib' : Library} {member_id isbn : String}
    {now : Nat} {msg : String}
    (hclean : ∀ b, findEntry isbn lib.books = some b → b.available = true →
      b.borrowed_by = none ∧ b.borrow_date = none)
    (hsucc : lib.borrow_book member_id isbn now = (lib', (true, msg))) :
    ∃ msg2, lib'.return_book member_id isbn = (lib, (true, msg2)) := by
  cases hm : findEntry member_id lib.members with
  | none =>
    rw [borrow_book_member_missing hm] at hsucc
    simp at hsucc
  | some member =>
    cases hb : findEntry isbn lib.books with
    | none =>
      rw [borrow_book_book_missing hm hb] at hsucc
      simp at hsucc
    | some book =>
      by_cases hav : book.available = true
      · by_cases hin : isbn ∈ member.borrowed_books
        · rw [borrow_book_defensive_eq hm hb hav hin] at hsucc
          simp at hsucc
        · rw [borrow_book_success_eq hm hb hav hin] at hsucc
          rw [Prod.mk.injEq] at hsucc
          obtain ⟨hlib, -⟩ := hsucc
          subst hlib
          obtain ⟨hby0, hbd0⟩ := hclean book hb hav
          set book2 := { book with available := false, borrowed_by := some member_id, borrow_date := some now } with hbook2
          set member2 := { member with borrowed_books := member.borrowed_books ++ [isbn] } with hmember2
          have hm2 : findEntry member_id (updateEntry member_id member2 lib.members) = some member2 :=
            findEntry_update_self hm
          have hb2 : findEntry isbn (updateEntry isbn book2 lib.books) = some book2 :=
            findEntry_update_self hb
          have hin2 : isbn ∈ member2.borrowed_books := by
            rw [hmember2]
            exact List.mem_append_right _ (List.mem_singleton_self isbn)
          have hunav2 : book2.available = false := by rw [hbook2]
          rw [return_book_success_eq hm2 hb2 hin2 hunav2]
          refine ⟨"Book \x27" ++ book2.title ++ "\x27 returned successfully", ?_⟩
          rw [Prod.mk.injEq]
          refine ⟨?_, rfl⟩
          have hbx : ({ book2 with available := true, borrowed_by := none, borrow_date := none } : Book) = book :=
            book_clear_eq book2 book rfl rfl rfl hav hby0 hbd0
          have herase : member2.borrowed_books.erase isbn = member.borrowed_books := by
            rw [hmember2]
            show (member.borrowed_books ++ [isbn]).erase isbn = member.borrowed_books
            exact erase_append_singleton hin
          have hmx : ({ member2 with borrowed_books := member2.borrowed_books.erase isbn } : Member) = member :=
            member_clear_eq member2 member isbn rfl rfl rfl herase
          show Library.mk lib.name
            (updateEntry isbn { book2 with available := true, borrowed_by := none, borrow_date := none } (updateEntry isbn book2 lib.books))
            (updateEntry member_id { member2 with borrowed_books := member2.borrowed_books.erase isbn } (updateEntry member_id member2 lib.members))
            lib.librarians = lib
          rw [updateEntry_updateEntry, updateEntry_updateEntry, hbx, hmx,
            updateEntry_self hb, updateEntry_self hm]
      · have hav' : book.available = false := by
          revert hav; cases book.available <;> simp
        rw [borrow_book_unavailable hm hb hav'] at hsucc
        simp at hsucc

theorem C4_round_trip_witness :
    ∃ msg2, libW3.return_book "M1" "111" = (libW2, (true, msg2)) :=
  @C4_round_trip libW2 libW3 "M1" "111" 5
    "Book \x27Dune\x27 borrowed successfully" (by decide) (by decide)

/-- Claim C5: in reachable states, once the preliminary checks of
`borrow_book` (member registered, book present, book available) or
`return_book` (member registered, book present, member holds the ISBN) pass,
the transaction succeeds with the message naming the book's title — the
defensive generic-failure branches are unreachable. -/
theorem C5_defensive_branch_unreachable {lib : Library} (h : Reachable lib) :
    (∀ member_id isbn now member book,
      findEntry member_id lib.members = some member →
      findEntry isbn lib.books = some book →
      book.available = true →
      (lib.borrow_book member_id isbn now).2 =
        (true, "Book \x27" ++ book.title ++ "\x27 borrowed successfully")) ∧
    (∀ member_id isbn member book,
      findEntry member_id lib.members = some member →
      findEntry isbn lib.books = some book →
      isbn ∈ member.borrowed_books →
      (lib.return_book member_id isbn).2 =
        (true, "Book \x27" ++ book.title ++ "\x27 returned successfully")) := by
  have hinv := reachable_inv h
  constructor
  · intro member_id isbn now member book hm hb hav
    have hnotin : isbn ∉ member.borrowed_books := by
      intro hin
      obtain ⟨b₂, hfind₂, hunav₂, -⟩ := hinv.held_linked member_id member hm isbn hin
      rw [hb] at hfind₂
      obtain rfl : book = b₂ := Option.some.inj hfind₂
      rw [hav] at hunav₂
      exact Bool.noConfusion hunav₂
    rw [borrow_book_success_eq hm hb hav hnotin]
  · intro member_id isbn member book hm hb hin
    obtain ⟨b₂, hfind₂, hunav₂, -⟩ := hinv.held_linked member_id member hm isbn hin
    rw [hb] at hfind₂
    obtain rfl : book = b₂ := Option.some.inj hfind₂
    rw [return_book_success_eq hm hb hin hunav₂]

theorem C5_defensive_branch_unreachable_witness :
    (libW2.borrow_book "M1" "111" 5).2 =
      (true, "Book \x27" ++ bookW.title ++ "\x27 borrowed successfully") ∧
    (libW3.return_book "M1" "111").2 =
      (true, "Book \x27" ++ bookW3.title ++ "\x27 returned successfully") :=
  ⟨(C5_defensive_branch_unreachable reachableW2).1 "M1" "111" 5 memberW bookW
     (by decide) (by decide) (by decide),
   (C5_defensive_branch_unreachable reachableW3).2 "M1" "111" memberW3 bookW3
     (by decide) (by decide) (by decide)⟩

end LMS
